import Mathlib

/-!
Verification development for the grpcsrv server framework.

We give a shallow embedding of the parts of the code relevant to the
specification: the payload sanitizer (`sanitizeJSON` / `sanitizeBytes`),
the unary interceptor pipeline (`callServerInterceptor`,
`pprofUnaryInterceptor`, `tracingDataServerInterceptor`,
`recoverUnaryGRPC`), the stream interceptor pipeline, the HTTP recovery
middleware (`recoverHTTP`), the correlation extractor
(`traceIDFromContext`), and the lifecycle manager's `Start`/`Stop`.

Machine-level details that the code delegates to external collaborators
(protojson marshalling, the JSON codec, the OpenTelemetry span exporter,
the network runtime) are modelled as explicit parameters or as abstract
result values; everything the repository's own code computes is embedded
directly from the source.
-/

namespace Grpcsrv

/-! ## Generic decoded JSON trees (the input domain of the sanitizer)

`map[string]any` / `[]any` / scalar values produced by `json.Unmarshal`
are modelled as a closed tagged variant.  Objects are association lists
of fields (a Go map has unique keys, but none of the results below need
that assumption).  JSON numbers (Go `float64`) are modelled as rationals;
the sanitizer never inspects numeric values.
-/

inductive JValue : Type where
  | str (s : String)
  | num (q : Rat)
  | bool (b : Bool)
  | null
  | obj (fields : List (String × JValue))
  | arr (elems : List JValue)

/-- Model of Go `strings.EqualFold`: equality under simple case folding.
Go folds with Unicode simple folding; the configured denylist keys and
the JSON keys of interest are ASCII, so the fold is modelled with the
ASCII `Char.toLower`, applied to the character lists of both strings. -/
def eqFold (a b : String) : Bool :=
  a.data.map Char.toLower == b.data.map Char.toLower

/-- Whether `key` matches some entry of the configured denylist
(`s.sanitizeKeys`), case-insensitively — the loop body of the `case
string` branch of `sanitizeJSON`. -/
def keyMatches (keys : List String) (key : String) : Bool :=
  keys.any (fun k => eqFold key k)

mutual

/-- Embedding of `(*Service).sanitizeJSON`: walk the fields of a decoded
object, rewriting each value via `sanitizeEntry` under its key. -/
def sanitizeJSON (keys : List String) : List (String × JValue) → List (String × JValue)
  | [] => []
  | (k, v) :: fs => (k, sanitizeEntry keys k v) :: sanitizeJSON keys fs

/-- One iteration of the `switch` in `sanitizeJSON`: a nested object is
recursed into, an array has its object elements recursed into
(`sanitizeElems`), a string is replaced by `"sanitized"` when the
containing key matches the denylist, and every other value is left
unchanged. -/
def sanitizeEntry (keys : List String) (k : String) : JValue → JValue
  | .obj gs => .obj (sanitizeJSON keys gs)
  | .arr vs => .arr (sanitizeElems keys vs)
  | .str s => if keyMatches keys k then .str "sanitized" else .str s
  | v => v

/-- The `case []any` branch of `sanitizeJSON`: only elements that are
objects are sanitized; any other element (including a nested array) is
left untouched. -/
def sanitizeElems (keys : List String) : List JValue → List JValue
  | [] => []
  | .obj gs :: vs => .obj (sanitizeJSON keys gs) :: sanitizeElems keys vs
  | v :: vs => v :: sanitizeElems keys vs

end

/-- Top-level sanitization of a decoded value: `sanitizeBytes` only
applies `sanitizeJSON` when the bytes decode to a JSON object
(`map[string]any`); any other input is returned unmodified (fail-open). -/
def sanitizeTop (keys : List String) : JValue → JValue
  | .obj fs => .obj (sanitizeJSON keys fs)
  | v => v

/-! ### Paths into a JSON tree, for stating what the sanitizer touches -/

/-- One navigation step into a JSON tree: an object field or an array
index. -/
inductive PathStep : Type where
  | key (k : String)
  | idx (i : Nat)
deriving DecidableEq

/-- First-match field lookup in a decoded object (Go map indexing). -/
def lookupField : List (String × JValue) → String → Option JValue
  | [], _ => none
  | (k, v) :: fs, k' => if k = k' then some v else lookupField fs k'

/-- Generic navigation: the value at a path in a JSON tree, if the path
is valid. -/
def getAt : JValue → List PathStep → Option JValue
  | v, [] => some v
  | .obj fs, .key k :: p =>
    match lookupField fs k with
    | some v => getAt v p
    | none => none
  | .arr vs, .idx i :: p =>
    match vs.get? i with
    | some v => getAt v p
    | none => none
  | _, _ => none

/-- Whether a path (relative to a value that sits under containing key
`k`) points at a string that the sanitizer's walk actually replaces:
the walk descends through object fields and through object elements of
arrays, and replaces a string exactly when its immediately containing
object key matches the denylist.  Arrays nested directly inside arrays
are not descended into, mirroring the `case []any` branch. -/
def replacedVal (keys : List String) (k : String) : JValue → List PathStep → Bool
  | .str _, [] => keyMatches keys k
  | .obj fs, .key k' :: p =>
    match lookupField fs k' with
    | some v => replacedVal keys k' v p
    | none => false
  | .arr vs, .idx i :: p =>
    match vs.get? i with
    | some (.obj gs) => replacedVal keys k (.obj gs) p
    | _ => false
  | _, _ => false

/-- Scalar (non-object, non-array) values: the ones the sanitizer either
replaces (matching strings) or is required to leave untouched. -/
def isScalar : JValue → Bool
  | .obj _ => false
  | .arr _ => false
  | _ => true

/-- The elementwise transform performed by the `case []any` branch:
object elements are sanitized, everything else passes through. -/
def sanitizeElem (keys : List String) : JValue → JValue
  | .obj gs => .obj (sanitizeJSON keys gs)
  | v => v

theorem sanitizeElems_eq_map (keys : List String) :
    ∀ vs : List JValue, sanitizeElems keys vs = vs.map (sanitizeElem keys)
  | [] => rfl
  | v :: vs => by
    cases v <;> simp [sanitizeElems, sanitizeElem, sanitizeElems_eq_map keys vs]

theorem lookupField_sanitizeJSON (keys : List String) :
    ∀ (fs : List (String × JValue)) (k' : String),
      lookupField (sanitizeJSON keys fs) k' =
        (lookupField fs k').map (sanitizeEntry keys k')
  | [], _ => rfl
  | (k, v) :: fs, k' => by
    simp only [sanitizeJSON, lookupField]
    by_cases h : k = k'
    · subst h; simp
    · simp [h, lookupField_sanitizeJSON keys fs k']

theorem sanitizeJSON_keys_unchanged (keys : List String) :
    ∀ fs : List (String × JValue),
      (sanitizeJSON keys fs).map Prod.fst = fs.map Prod.fst
  | [] => rfl
  | (k, v) :: fs => by
    simp [sanitizeJSON, sanitizeJSON_keys_unchanged keys fs]

/-- Every position the sanitizer's walk marks as replaced indeed holds
the literal `"sanitized"` after sanitization. -/
theorem getAt_sanitizeEntry_replaced (keys : List String) :
    ∀ (p : List PathStep) (k : String) (v : JValue),
      replacedVal keys k v p = true →
      getAt (sanitizeEntry keys k v) p = some (.str "sanitized") := by
  intro p
  induction p with
  | nil =>
    intro k v h
    cases v <;> simp [replacedVal] at h
    simp [sanitizeEntry, h, getAt]
  | cons step p ih =>
    intro k v h
    cases step with
    | key k' =>
      cases v <;> simp [replacedVal] at h
      case obj fs =>
        cases hm : lookupField fs k' with
        | none => rw [hm] at h; simp at h
        | some w =>
          rw [hm] at h; simp at h
          simp only [sanitizeEntry, getAt, lookupField_sanitizeJSON, hm, Option.map_some]
          exact ih k' w h
    | idx i =>
      cases v <;> simp [replacedVal] at h
      case arr vs =>
        cases hm : vs[i]? with
        | none => rw [hm] at h; simp at h
        | some w =>
          rw [hm] at h
          cases w <;> simp at h
          case obj gs =>
            simp only [sanitizeEntry, getAt, sanitizeElems_eq_map, List.get?_eq_getElem?,
              List.getElem?_map, hm, Option.map_some, sanitizeElem]
            exact ih k (.obj gs) h

/-- Every scalar at a position the sanitizer's walk does not replace is
left unchanged — in particular all non-string scalars everywhere, all
strings under non-matching keys, and all strings the walk never reaches. -/
theorem getAt_sanitizeEntry_scalar (keys : List String) :
    ∀ (p : List PathStep) (k : String) (v : JValue) (w : JValue),
      replacedVal keys k v p = false →
      getAt v p = some w →
      isScalar w = true →
      getAt (sanitizeEntry keys k v) p = some w := by
  intro p
  induction p with
  | nil =>
    intro k v w hrep hget hsc
    simp [getAt] at hget
    subst hget
    cases v <;> simp [isScalar] at hsc <;>
      simp_all [sanitizeEntry, replacedVal, getAt]
  | cons step p ih =>
    intro k v w hrep hget hsc
    cases step with
    | key k' =>
      cases v <;> simp [getAt] at hget
      case obj fs =>
        cases hm : lookupField fs k' with
        | none => rw [hm] at hget; simp at hget
        | some u =>
          rw [hm] at hget; simp at hget
          simp only [replacedVal, hm] at hrep
          simp only [sanitizeEntry, getAt, lookupField_sanitizeJSON, hm, Option.map_some]
          exact ih k' u w hrep hget hsc
    | idx i =>
      cases v <;> simp [getAt] at hget
      case arr vs =>
        cases hm : vs[i]? with
        | none => rw [hm] at hget; simp at hget
        | some u =>
          rw [hm] at hget; simp at hget
          simp [replacedVal] at hrep
          rw [hm] at hrep
          simp only [sanitizeEntry, getAt, sanitizeElems_eq_map, List.get?_eq_getElem?,
            List.getElem?_map, hm, Option.map_some]
          cases u with
          | obj gs => exact ih k (.obj gs) w hrep hget hsc
          | str s => exact hget
          | num q => exact hget
          | bool b => exact hget
          | null => exact hget
          | arr ws => exact hget

/-- Sanitization keeps every object's key list intact, at every depth:
an object found at any path before sanitization is still an object with
exactly the same keys after it. -/
theorem getAt_sanitizeEntry_objKeys (keys : List String) :
    ∀ (p : List PathStep) (k : String) (v : JValue) (fs' : List (String × JValue)),
      getAt v p = some (.obj fs') →
      ∃ gs', getAt (sanitizeEntry keys k v) p = some (.obj gs') ∧
        gs'.map Prod.fst = fs'.map Prod.fst := by
  intro p
  induction p with
  | nil =>
    intro k v fs' hget
    simp [getAt] at hget
    subst hget
    exact ⟨sanitizeJSON keys fs', rfl, sanitizeJSON_keys_unchanged keys fs'⟩
  | cons step p ih =>
    intro k v fs' hget
    cases step with
    | key k' =>
      cases v <;> simp [getAt] at hget
      case obj fs =>
        cases hm : lookupField fs k' with
        | none => rw [hm] at hget; simp at hget
        | some u =>
          rw [hm] at hget; simp at hget
          simp only [sanitizeEntry, getAt, lookupField_sanitizeJSON, hm, Option.map_some]
          exact ih k' u fs' hget
    | idx i =>
      cases v <;> simp [getAt] at hget
      case arr vs =>
        cases hm : vs[i]? with
        | none => rw [hm] at hget; simp at hget
        | some u =>
          rw [hm] at hget; simp at hget
          simp only [sanitizeEntry, getAt, sanitizeElems_eq_map, List.get?_eq_getElem?,
            List.getElem?_map, hm, Option.map_some]
          cases u with
          | obj gs => exact ih k (.obj gs) fs' hget
          | str s => exact ⟨fs', hget, rfl⟩
          | num q => exact ⟨fs', hget, rfl⟩
          | bool b => exact ⟨fs', hget, rfl⟩
          | null => exact ⟨fs', hget, rfl⟩
          | arr ws => exact ⟨fs', hget, rfl⟩

/-- A position the walk replaces is always a string value sitting
directly under an object key that matches the denylist: the path ends
with that key, and the original value there is some string (unless the
whole value is itself a bare string under the ambient key `k`). -/
theorem replacedVal_ends_with_key (keys : List String) :
    ∀ (p : List PathStep) (k : String) (v : JValue),
      replacedVal keys k v p = true →
      (∃ p' k' s, p = p' ++ [.key k'] ∧ keyMatches keys k' = true ∧
          getAt v p = some (.str s)) ∨
      (p = [] ∧ ∃ s, v = .str s ∧ keyMatches keys k = true) := by
  intro p
  induction p with
  | nil =>
    intro k v h
    cases v <;> simp [replacedVal] at h
    exact Or.inr ⟨rfl, _, rfl, h⟩
  | cons step p ih =>
    intro k v h
    cases step with
    | key k' =>
      cases v <;> simp [replacedVal] at h
      case obj fs =>
        cases hm : lookupField fs k' with
        | none => rw [hm] at h; simp at h
        | some w =>
          rw [hm] at h; simp at h
          rcases ih k' w h with ⟨p', k'', s, hp, hk, hg⟩ | ⟨hp, s, hv, hk⟩
          · refine Or.inl ⟨.key k' :: p', k'', s, by simp [hp], hk, ?_⟩
            simp [getAt, hm, hg]
          · subst hp hv
            refine Or.inl ⟨[], k', s, rfl, hk, ?_⟩
            simp [getAt, hm]
    | idx i =>
      cases v <;> simp [replacedVal] at h
      case arr vs =>
        cases hm : vs[i]? with
        | none => rw [hm] at h; simp at h
        | some w =>
          rw [hm] at h
          cases w <;> simp at h
          case obj gs =>
            rcases ih k (.obj gs) h with ⟨p', k'', s, hp, hk, hg⟩ | ⟨hp, s, hv, hk⟩
            · refine Or.inl ⟨.idx i :: p', k'', s, by simp [hp], hk, ?_⟩
              simp [getAt, hm, hg]
            · simp at hv

mutual

theorem sanitizeJSON_idem (keys : List String) :
    ∀ fs : List (String × JValue),
      sanitizeJSON keys (sanitizeJSON keys fs) = sanitizeJSON keys fs
  | [] => rfl
  | (k, v) :: fs => by
    simp only [sanitizeJSON]
    rw [sanitizeEntry_idem keys k v, sanitizeJSON_idem keys fs]

theorem sanitizeEntry_idem (keys : List String) :
    ∀ (k : String) (v : JValue),
      sanitizeEntry keys k (sanitizeEntry keys k v) = sanitizeEntry keys k v
  | _, .obj gs => by simp only [sanitizeEntry]; rw [sanitizeJSON_idem keys gs]
  | _, .arr vs => by simp only [sanitizeEntry]; rw [sanitizeElems_idem keys vs]
  | k, .str s => by
    simp only [sanitizeEntry]
    by_cases h : keyMatches keys k = true
    · simp [h, sanitizeEntry]
    · simp [h, sanitizeEntry]
  | _, .num _ => rfl
  | _, .bool _ => rfl
  | _, .null => rfl

theorem sanitizeElems_idem (keys : List String) :
    ∀ vs : List JValue,
      sanitizeElems keys (sanitizeElems keys vs) = sanitizeElems keys vs
  | [] => rfl
  | .obj gs :: vs => by
    simp only [sanitizeElems]
    rw [sanitizeJSON_idem keys gs, sanitizeElems_idem keys vs]
  | .str _ :: vs => by simp only [sanitizeElems]; rw [sanitizeElems_idem keys vs]
  | .num _ :: vs => by simp only [sanitizeElems]; rw [sanitizeElems_idem keys vs]
  | .bool _ :: vs => by simp only [sanitizeElems]; rw [sanitizeElems_idem keys vs]
  | .null :: vs => by simp only [sanitizeElems]; rw [sanitizeElems_idem keys vs]
  | .arr ws :: vs => by simp only [sanitizeElems]; rw [sanitizeElems_idem keys vs]

end

/-! ## Claim C1: what the sanitizer replaces -/

/-- Denylist used by the C1 counterexample. -/
def c1CexKeys : List String := ["password"]

/-- C1 counterexample input: a matching key inside an object that sits in
a sequence nested directly inside another sequence. -/
def c1CexTree : JValue :=
  .obj [("a", .arr [.arr [.obj [("password", .str "secret")]]])]

/-- The path to that string value. -/
def c1CexPath : List PathStep := [.key "a", .idx 0, .idx 0, .key "password"]

/-- C1 counterexample: the claim promises that a string under a
case-insensitively matching key is replaced at any depth of nesting, but
`sanitizeJSON` does not descend into sequences nested directly inside
sequences: here the key "password" matches the denylist and holds the
string "secret" at a valid path, yet sanitization leaves it intact. -/
theorem c1_counterexample_array_in_array :
    keyMatches c1CexKeys "password" = true ∧
    getAt c1CexTree c1CexPath = some (.str "secret") ∧
    getAt (sanitizeTop c1CexKeys c1CexTree) c1CexPath = some (.str "secret") ∧
    getAt (sanitizeTop c1CexKeys c1CexTree) c1CexPath ≠ some (.str "sanitized") := by
  refine ⟨by decide, rfl, rfl, ?_⟩
  intro h
  rw [show getAt (sanitizeTop c1CexKeys c1CexTree) c1CexPath = some (.str "secret")
    from rfl] at h
  simp at h

/-- C1 (amended): sanitization replaces with `"sanitized"` exactly the
string values reached by its walk — descending through object fields and
through object elements of sequences that are themselves object fields —
whose immediately containing key case-insensitively matches the
denylist; such positions always end in a matching key holding a string;
every scalar at any other position (non-matching strings, strings the
walk does not reach, and all non-string scalars) is left unchanged; and
every object keeps exactly its keys.  Sequences nested directly inside
sequences are not descended into. -/
theorem c1_sanitize_redaction (keys : List String) (fs : List (String × JValue))
    (p : List PathStep) (w : JValue) :
    (replacedVal keys "" (.obj fs) p = true →
      getAt (sanitizeTop keys (.obj fs)) p = some (.str "sanitized")) ∧
    (replacedVal keys "" (.obj fs) p = true →
      ∃ p' k' s, p = p' ++ [.key k'] ∧ keyMatches keys k' = true ∧
        getAt (.obj fs) p = some (.str s)) ∧
    (replacedVal keys "" (.obj fs) p = false → getAt (.obj fs) p = some w →
      isScalar w = true → getAt (sanitizeTop keys (.obj fs)) p = some w) ∧
    (∀ fs', getAt (.obj fs) p = some (.obj fs') →
      ∃ gs', getAt (sanitizeTop keys (.obj fs)) p = some (.obj gs') ∧
        gs'.map Prod.fst = fs'.map Prod.fst) := by
  refine ⟨fun h => getAt_sanitizeEntry_replaced keys p "" (.obj fs) h,
    fun h => ?_,
    fun h1 h2 h3 => getAt_sanitizeEntry_scalar keys p "" (.obj fs) w h1 h2 h3,
    fun fs' h => getAt_sanitizeEntry_objKeys keys p "" (.obj fs) fs' h⟩
  rcases replacedVal_ends_with_key keys p "" (.obj fs) h with hcase | ⟨_, s, hv, _⟩
  · exact hcase
  · cases hv

/-- Witness for `c1_sanitize_redaction` on the spec's own example
`{"name": "Bob", "password": "secret"}`: the matching key is redacted,
the non-matching string survives, and the key list is intact. -/
theorem c1_sanitize_redaction_witness :
    getAt (sanitizeTop ["password"]
        (.obj [("name", .str "Bob"), ("password", .str "secret")]))
      [.key "password"] = some (.str "sanitized") ∧
    getAt (sanitizeTop ["password"]
        (.obj [("name", .str "Bob"), ("password", .str "secret")]))
      [.key "name"] = some (.str "Bob") ∧
    ∃ gs', getAt (sanitizeTop ["password"]
        (.obj [("name", .str "Bob"), ("password", .str "secret")])) [] =
          some (.obj gs') ∧
      gs'.map Prod.fst = ["name", "password"] := by
  refine ⟨?_, ?_, ?_⟩
  · exact (c1_sanitize_redaction ["password"]
      [("name", .str "Bob"), ("password", .str "secret")] [.key "password"] .null).1
      (by decide)
  · exact (c1_sanitize_redaction ["password"]
      [("name", .str "Bob"), ("password", .str "secret")] [.key "name"]
      (.str "Bob")).2.2.1 (by decide) rfl rfl
  · exact (c1_sanitize_redaction ["password"]
      [("name", .str "Bob"), ("password", .str "secret")] [] .null).2.2.2
      [("name", .str "Bob"), ("password", .str "secret")] rfl

/-! ## Claim C8: idempotence of sanitization -/

/-- C8: sanitizing a decoded tree twice gives the same result as
sanitizing it once, for every input tree and every denylist. -/
theorem c8_sanitize_idempotent (keys : List String) (x : JValue) :
    sanitizeTop keys (sanitizeTop keys x) = sanitizeTop keys x := by
  cases x <;> simp only [sanitizeTop]
  rw [sanitizeJSON_idem]

/-! ## The unary/stream interceptor pipeline

The interceptors of `part_001`, `part_005` and `pprof.go`, assembled by
`prepare` (`part_003`), are embedded as functions from an abstract call
context to a handler outcome together with the list of observable side
effects (metadata writes, log records, span attributes, profiler
labels), in the order the code performs them.  External collaborators —
`protojson.Marshal`, the span exporter, the profiler — appear as
explicit parameters or as emitted events.
-/

/-- The value of the `x-trace-id` response metadata key. -/
def TraceIDKey : String := "x-trace-id"

/-- The sentinel value of the `x-trace-debug` request metadata key. -/
def TraceDebugKeyValue : String := "1"

/-- `MaxSpanBytes`: maximum captured body size. -/
def MaxSpanBytes : Nat := 64000

/-- A Go panic value, as discriminated by `errFromPanic`'s type switch:
an `error` (carrying its `Error()` text), a string, or any other value
(carrying its `%#v` rendering). -/
inductive PanicValue : Type where
  | err (msg : String)
  | str (s : String)
  | other (goRepr : String)
deriving DecidableEq

/-- The text `errFromPanic` extracts from a panic value. -/
def panicText : PanicValue → String
  | .err m => m
  | .str s => s
  | .other r => r

/-- A gRPC status error: a code and a message. -/
structure GrpcError : Type where
  code : Nat
  msg : String
deriving DecidableEq

/-- `codes.Internal`. -/
def internalCode : Nat := 13

/-- Embedding of `errFromPanic`: `status.Errorf(codes.Internal,
"recover: %s", errText)`. -/
def errFromPanic (p : PanicValue) : GrpcError :=
  { code := internalCode, msg := "recover: " ++ panicText p }

/-- The name of a gRPC status code, as used in a status error's
`Error()` string; only `Internal` occurs in this development. -/
def codeString (c : Nat) : String := if c = 13 then "Internal" else "Unknown"

/-- The `Error()` string of a gRPC status error. -/
def grpcErrorString (e : GrpcError) : String :=
  "rpc error: code = " ++ codeString e.code ++ " desc = " ++ e.msg

/-- The per-call execution context, reduced to what the interceptors
read from it: the active span's trace id as its canonical hex string
(present only when the span context carries a non-zero trace id), the
incoming `x-trace-debug` metadata values, and the peer host. -/
structure Ctx : Type where
  traceID : Option String
  mdTraceDebug : List String
  remoteAddr : Option String
deriving DecidableEq

/-- Embedding of `(*Service).traceIDFromContext`: the canonical trace-id
string and a presence flag. -/
def traceIDFromContext (ctx : Ctx) : String × Bool :=
  match ctx.traceID with
  | some t => (t, true)
  | none => ("", false)

/-- Embedding of `extractRemoteAddr`: the peer host, or `""`. -/
def extractRemoteAddr (ctx : Ctx) : String :=
  match ctx.remoteAddr with
  | some h => h
  | none => ""

/-- How a handler call ends: a response, a status error, or a panic. -/
inductive HandlerOutcome (α : Type) : Type where
  | ok (resp : α)
  | err (e : GrpcError)
  | panic (p : PanicValue)
deriving DecidableEq

/-- Observable side effects of one call, in program order. -/
inductive Event : Type where
  | setTrailer (key val : String)
  | setHTTPHeader (key val : String)
  | logDebug (msg : String)
  | logError (msg : String) (hasStack : Bool) (traceID : Option String)
  | logPanicCallback (p : PanicValue)
  | spanAttrBytes (name : String) (value : List Nat)
  | spanAttrStr (name val : String)
  | pprofLabel (key val : String)
  | httpError (status : Nat) (body : String)
deriving DecidableEq

/-- An intercepted computation: final outcome plus emitted events. -/
abbrev CallM (α : Type) := HandlerOutcome α × List Event

/-- The `if traceOK` block of `callServerInterceptor` (and of its stream
counterpart): attach the trace id to outbound trailer metadata. -/
def trailerEvents (ctx : Ctx) : List Event :=
  match traceIDFromContext ctx with
  | (t, true) => [.setTrailer TraceIDKey t]
  | (_, false) => []

/-- Embedding of `(*Service).callServerInterceptor`: set the trailer,
enrich the context, invoke the inner handler, log non-nil errors at
debug level, and return the inner result unchanged. -/
def callServerInterceptor {α : Type} (ctxUnaryModifier : Ctx → String → String → Ctx)
    (handler : Ctx → CallM α) (ctx : Ctx) : CallM α :=
  let ctx' := ctxUnaryModifier ctx (extractRemoteAddr ctx) (traceIDFromContext ctx).1
  let (out, evs) := handler ctx'
  let post : List Event :=
    match out with
    | .err _ => [.logDebug "grpc server error"]
    | _ => []
  (out, trailerEvents ctx ++ evs ++ post)

/-- Embedding of `pprofUnaryInterceptor`: run the inner handler under a
`grpc-handler` profiler label; the result passes through unchanged. -/
def pprofUnaryInterceptor {α : Type} (fullMethod : String)
    (handler : Ctx → CallM α) (ctx : Ctx) : CallM α :=
  let (out, evs) := handler ctx
  (out, .pprofLabel "grpc-handler" fullMethod :: evs)

/-- The debug-capture gate of `tracingDataServerInterceptor`: the first
`x-trace-debug` metadata value equals `"1"`. -/
def needDebug (ctx : Ctx) : Bool :=
  match ctx.mdTraceDebug with
  | v :: _ => v == TraceDebugKeyValue
  | [] => false

/-- Embedding of `tagRemoteAddr`: attach the peer host as a span
attribute when it is non-empty. -/
def tagRemoteAddrEvents (ctx : Ctx) : List Event :=
  if extractRemoteAddr ctx ≠ "" then
    [.spanAttrStr "remote_addr" (extractRemoteAddr ctx)]
  else []

/-- The request-capture step of `tracingDataServerInterceptor`: when
`protojson.Marshal` succeeds (`reqBytes = some rb`), the sanitized body
is attached only when strictly shorter than `MaxSpanBytes`; otherwise
nothing is attached. -/
def tracingReqAttrs (san : List Nat → List Nat) (reqBytes : Option (List Nat)) :
    List Event :=
  match reqBytes with
  | some rb =>
    if rb.length < MaxSpanBytes then [.spanAttrBytes "grpc_request" (san rb)] else []
  | none => []

/-- The response-capture step of `tracingDataServerInterceptor`: only on
a successful handler outcome whose marshalling succeeds; a body longer
than `MaxSpanBytes` is truncated to that bound, then sanitized and
attached. -/
def tracingRespAttrs {α : Type} (san : List Nat → List Nat)
    (respBytes : α → Option (List Nat)) (out : HandlerOutcome α) : List Event :=
  match out with
  | .ok resp =>
    match respBytes resp with
    | some rb =>
      [.spanAttrBytes "grpc_response"
        (san (if rb.length > MaxSpanBytes then rb.take MaxSpanBytes else rb))]
    | none => []
  | _ => []

/-- Embedding of `(*Service).tracingDataServerInterceptor`.  The results
of `protojson.Marshal` on the request and on the response are explicit
parameters (`none` models a marshal error or a non-proto message);
`san` is the service's `sanitizeBytes`. -/
def tracingDataServerInterceptor {α : Type} (san : List Nat → List Nat)
    (reqBytes : Option (List Nat)) (respBytes : α → Option (List Nat))
    (handler : Ctx → CallM α) (ctx : Ctx) : CallM α :=
  if needDebug ctx then
    let pre := tagRemoteAddrEvents ctx ++ tracingReqAttrs san reqBytes
    let (out, evs) := handler ctx
    (out, pre ++ evs ++ tracingRespAttrs san respBytes out)
  else
    handler ctx

/-- Embedding of `(*Service).recoverUnaryGRPC`: a panic from the inner
handler is logged with its full stack trace (and the trace id when
present), converted to an internal status error, and the injectable
panic callback is invoked; any other outcome passes through. -/
def recoverUnaryGRPC {α : Type} (handler : Ctx → CallM α) (ctx : Ctx) : CallM α :=
  let (out, evs) := handler ctx
  match out with
  | .panic p =>
    (.err (errFromPanic p),
      evs ++ [.logError "recovered from grpc panic" true ctx.traceID,
        .logPanicCallback p])
  | _ => (out, evs)

/-- Static configuration of the unary interceptor chain assembled by
`prepare`, together with the per-call marshalling collaborators. -/
structure UnaryPipelineConfig (α : Type) : Type where
  recoverEnabled : Bool
  fullMethod : String
  ctxUnaryModifier : Ctx → String → String → Ctx
  san : List Nat → List Nat
  reqBytes : Option (List Nat)
  respBytes : α → Option (List Nat)

/-- The unary interceptor chain built by `prepare`:
`grpc_middleware.ChainUnaryServer(callServerInterceptor,
pprofUnaryInterceptor, tracingDataServerInterceptor [, recoverUnaryGRPC])`,
the first interceptor outermost, `recoverUnaryGRPC` appended only when
`recoverEnabled`. -/
def unaryPipeline {α : Type} (cfg : UnaryPipelineConfig α)
    (handler : Ctx → CallM α) (ctx : Ctx) : CallM α :=
  callServerInterceptor cfg.ctxUnaryModifier
    (pprofUnaryInterceptor cfg.fullMethod
      (tracingDataServerInterceptor cfg.san cfg.reqBytes cfg.respBytes
        (if cfg.recoverEnabled then recoverUnaryGRPC handler else handler))) ctx

/-! ### Decomposition of one pipeline run into its stage contributions -/

/-- The enriched context handed to the inner stages by
`callServerInterceptor`. -/
def modifiedCtx {α : Type} (cfg : UnaryPipelineConfig α) (ctx : Ctx) : Ctx :=
  cfg.ctxUnaryModifier ctx (extractRemoteAddr ctx) (traceIDFromContext ctx).1

/-- The outcome after the optional recovery stage. -/
def recoverOutcome {α : Type} (recoverEnabled : Bool) (out : HandlerOutcome α) :
    HandlerOutcome α :=
  if recoverEnabled then
    match out with
    | .panic p => .err (errFromPanic p)
    | o => o
  else out

/-- The events the optional recovery stage appends. -/
def recoverPostEvents {α : Type} (recoverEnabled : Bool) (ctx : Ctx)
    (out : HandlerOutcome α) : List Event :=
  if recoverEnabled then
    match out with
    | .panic p =>
      [.logError "recovered from grpc panic" true ctx.traceID, .logPanicCallback p]
    | _ => []
  else []

/-- The events the data-capture stage emits before the handler. -/
def tracingPreEvents {α : Type} (cfg : UnaryPipelineConfig α) (ctx : Ctx) : List Event :=
  if needDebug ctx then tagRemoteAddrEvents ctx ++ tracingReqAttrs cfg.san cfg.reqBytes
  else []

/-- The events the data-capture stage emits after the handler. -/
def tracingPostEvents {α : Type} (cfg : UnaryPipelineConfig α) (ctx : Ctx)
    (out : HandlerOutcome α) : List Event :=
  if needDebug ctx then tracingRespAttrs cfg.san cfg.respBytes out else []

/-- The events the correlation stage appends after the inner call. -/
def csiPostEvents {α : Type} (out : HandlerOutcome α) : List Event :=
  match out with
  | .err _ => [.logDebug "grpc server error"]
  | _ => []

theorem recoverStage_eq {α : Type} (r : Bool) (handler : Ctx → CallM α) (ctx : Ctx)
    (out : HandlerOutcome α) (hevs : List Event) (hh : handler ctx = (out, hevs)) :
    (if r then recoverUnaryGRPC handler else handler) ctx =
      (recoverOutcome r out, hevs ++ recoverPostEvents r ctx out) := by
  cases r with
  | false => simp [recoverOutcome, recoverPostEvents, hh]
  | true => cases out <;> simp_all [recoverUnaryGRPC, recoverOutcome, recoverPostEvents]

theorem tracingStage_eq {α : Type} (san : List Nat → List Nat)
    (reqBytes : Option (List Nat)) (respBytes : α → Option (List Nat))
    (g : Ctx → CallM α) (ctx : Ctx) (out : HandlerOutcome α) (gevs : List Event)
    (hg : g ctx = (out, gevs)) :
    tracingDataServerInterceptor san reqBytes respBytes g ctx =
      (out,
        (if needDebug ctx then tagRemoteAddrEvents ctx ++ tracingReqAttrs san reqBytes
          else []) ++ gevs ++
        (if needDebug ctx then tracingRespAttrs san respBytes out else [])) := by
  by_cases h : needDebug ctx = true <;>
    simp [tracingDataServerInterceptor, h, hg]

/-- One unary pipeline run, written as the concatenation of each stage's
contribution around the handler's own outcome and events. -/
theorem unaryPipeline_decomp {α : Type} (cfg : UnaryPipelineConfig α)
    (handler : Ctx → CallM α) (ctx : Ctx) (out : HandlerOutcome α) (hevs : List Event)
    (hh : handler (modifiedCtx cfg ctx) = (out, hevs)) :
    unaryPipeline cfg handler ctx =
      (recoverOutcome cfg.recoverEnabled out,
        trailerEvents ctx ++
          (.pprofLabel "grpc-handler" cfg.fullMethod ::
            (tracingPreEvents cfg (modifiedCtx cfg ctx) ++
              (hevs ++ recoverPostEvents cfg.recoverEnabled (modifiedCtx cfg ctx) out) ++
              tracingPostEvents cfg (modifiedCtx cfg ctx)
                (recoverOutcome cfg.recoverEnabled out))) ++
          csiPostEvents (recoverOutcome cfg.recoverEnabled out)) := by
  have h1 := recoverStage_eq cfg.recoverEnabled handler (modifiedCtx cfg ctx) out hevs hh
  have h2 := tracingStage_eq cfg.san cfg.reqBytes cfg.respBytes
    (if cfg.recoverEnabled then recoverUnaryGRPC handler else handler)
    (modifiedCtx cfg ctx) _ _ h1
  simp only [unaryPipeline, callServerInterceptor, pprofUnaryInterceptor]
  rw [show cfg.ctxUnaryModifier ctx (extractRemoteAddr ctx) (traceIDFromContext ctx).1 =
    modifiedCtx cfg ctx from rfl]
  rw [h2]
  simp only [tracingPreEvents, tracingPostEvents, csiPostEvents]

/-! ### Stream interceptors and HTTP middleware -/

/-- Embedding of `(*Service).callServerStreamInterceptor`: set the
trailer on the wrapped stream, substitute the enriched context, invoke
the handler, log non-nil errors.  A stream handler returns only an
error, modelled as `CallM Unit` with `.ok ()` for a nil error. -/
def callServerStreamInterceptor (ctxStreamModifier : Ctx → String → String → Ctx)
    (handler : Ctx → CallM Unit) (ctx : Ctx) : CallM Unit :=
  let ctx' := ctxStreamModifier ctx (extractRemoteAddr ctx) (traceIDFromContext ctx).1
  let (out, evs) := handler ctx'
  let post : List Event :=
    match out with
    | .err _ => [.logDebug "grpc server stream error"]
    | _ => []
  (out, trailerEvents ctx ++ evs ++ post)

/-- Embedding of `pprofStreamInterceptor`. -/
def pprofStreamInterceptor (fullMethod : String)
    (handler : Ctx → CallM Unit) (ctx : Ctx) : CallM Unit :=
  let (out, evs) := handler ctx
  (out, .pprofLabel "grpc-handler" fullMethod :: evs)

/-- Embedding of `(*Service).recoverStreamGRPC`. -/
def recoverStreamGRPC (handler : Ctx → CallM Unit) (ctx : Ctx) : CallM Unit :=
  let (out, evs) := handler ctx
  match out with
  | .panic p =>
    (.err (errFromPanic p),
      evs ++ [.logError "recovered from grpc panic" true ctx.traceID,
        .logPanicCallback p])
  | _ => (out, evs)

/-- The stream interceptor chain built by `prepare`:
`callServerStreamInterceptor, pprofStreamInterceptor
[, recoverStreamGRPC]`, the first outermost. -/
def streamPipeline (recoverEnabled : Bool) (fullMethod : String)
    (ctxStreamModifier : Ctx → String → String → Ctx)
    (handler : Ctx → CallM Unit) (ctx : Ctx) : CallM Unit :=
  callServerStreamInterceptor ctxStreamModifier
    (pprofStreamInterceptor fullMethod
      (if recoverEnabled then recoverStreamGRPC handler else handler)) ctx

/-- How an HTTP handler invocation ends: normal return or panic. -/
inductive HTTPOutcome : Type where
  | done
  | panic (p : PanicValue)
deriving DecidableEq

/-- The `if traceOK` block of `setCtxModifierHTTPMiddleware`: set the
`x-trace-id` response header. -/
def httpHeaderEvents (ctx : Ctx) : List Event :=
  match traceIDFromContext ctx with
  | (t, true) => [.setHTTPHeader TraceIDKey t]
  | (_, false) => []

/-- Embedding of `(*Service).setCtxModifierHTTPMiddleware`: set the
response header when a trace id is present, enrich the context, then
delegate to the next handler. -/
def setCtxModifierHTTPMiddleware (ctxHTTPModifier : Ctx → String → Ctx)
    (next : Ctx → HTTPOutcome × List Event) (ctx : Ctx) : HTTPOutcome × List Event :=
  let ctx' := ctxHTTPModifier ctx (traceIDFromContext ctx).1
  let (out, evs) := next ctx'
  (out, httpHeaderEvents ctx ++ evs)

/-- Embedding of `(*Service).recoverHTTP`: a panic from the next handler
is logged with its stack trace, answered with `http.Error(w,
err.Error(), http.StatusInternalServerError)`, and reported to the panic
callback; a normal return passes through. -/
def recoverHTTP (next : Ctx → HTTPOutcome × List Event) (ctx : Ctx) :
    HTTPOutcome × List Event :=
  let (out, evs) := next ctx
  match out with
  | .panic p =>
    (.done,
      evs ++ [.logError "recovered from http panic" true ctx.traceID,
        .httpError 500 (grpcErrorString (errFromPanic p) ++ "\n"),
        .logPanicCallback p])
  | .done => (.done, evs)

/-! ### Event classification and framework-event inventories -/

/-- An outbound-trailer write of the `x-trace-id` key. -/
def isTraceIDTrailer : Event → Bool
  | .setTrailer k _ => k == TraceIDKey
  | _ => false

/-- A response-header write of the `x-trace-id` key. -/
def isTraceIDHTTPHeader : Event → Bool
  | .setHTTPHeader k _ => k == TraceIDKey
  | _ => false

/-- An error-level log record (the only way the framework logs a
panic). -/
def isPanicLog : Event → Bool
  | .logError _ _ _ => true
  | _ => false

/-- A `grpc_request` span attribute. -/
def isGrpcRequestAttr : Event → Bool
  | .spanAttrBytes n _ => n == "grpc_request"
  | _ => false

theorem trailerEvents_filter_trailer (ctx : Ctx) :
    (trailerEvents ctx).filter isTraceIDTrailer = trailerEvents ctx := by
  unfold trailerEvents traceIDFromContext
  cases ctx.traceID <;> simp [isTraceIDTrailer, TraceIDKey]

theorem trailerEvents_eq (ctx : Ctx) :
    trailerEvents ctx =
      match ctx.traceID with
      | some t => [.setTrailer TraceIDKey t]
      | none => [] := by
  unfold trailerEvents traceIDFromContext
  cases ctx.traceID <;> rfl

theorem tagRemoteAddrEvents_filter (p : Event → Bool) (c : Ctx)
    (hp : ∀ n v, p (.spanAttrStr n v) = false) :
    (tagRemoteAddrEvents c).filter p = [] := by
  unfold tagRemoteAddrEvents
  split <;> simp [hp]

theorem tracingReqAttrs_filter (p : Event → Bool) (san : List Nat → List Nat)
    (reqBytes : Option (List Nat))
    (hp : ∀ n v, p (.spanAttrBytes n v) = false) :
    (tracingReqAttrs san reqBytes).filter p = [] := by
  unfold tracingReqAttrs
  cases reqBytes with
  | none => rfl
  | some rb => split <;> simp [hp]

theorem tracingRespAttrs_filter {α : Type} (p : Event → Bool)
    (san : List Nat → List Nat) (respBytes : α → Option (List Nat))
    (out : HandlerOutcome α)
    (hp : ∀ n v, p (.spanAttrBytes n v) = false) :
    (tracingRespAttrs san respBytes out).filter p = [] := by
  unfold tracingRespAttrs
  cases out with
  | ok resp => cases hr : respBytes resp <;> simp [hr, hp]
  | err e => rfl
  | panic q => rfl

theorem tracingPreEvents_filter {α : Type} (p : Event → Bool)
    (cfg : UnaryPipelineConfig α) (c : Ctx)
    (hp1 : ∀ n v, p (.spanAttrStr n v) = false)
    (hp2 : ∀ n v, p (.spanAttrBytes n v) = false) :
    (tracingPreEvents cfg c).filter p = [] := by
  unfold tracingPreEvents
  split
  · rw [List.filter_append, tagRemoteAddrEvents_filter p c hp1,
      tracingReqAttrs_filter p cfg.san cfg.reqBytes hp2]
    rfl
  · rfl

theorem tracingPostEvents_filter {α : Type} (p : Event → Bool)
    (cfg : UnaryPipelineConfig α) (c : Ctx) (out : HandlerOutcome α)
    (hp : ∀ n v, p (.spanAttrBytes n v) = false) :
    (tracingPostEvents cfg c out).filter p = [] := by
  unfold tracingPostEvents
  split
  · exact tracingRespAttrs_filter p cfg.san cfg.respBytes out hp
  · rfl

theorem recoverPostEvents_filter {α : Type} (p : Event → Bool) (r : Bool) (c : Ctx)
    (out : HandlerOutcome α)
    (hp1 : ∀ m s t, p (.logError m s t) = false)
    (hp2 : ∀ q, p (.logPanicCallback q) = false) :
    (recoverPostEvents r c out).filter p = [] := by
  unfold recoverPostEvents
  cases r with
  | false => rfl
  | true => cases out <;> simp [hp1, hp2]

theorem csiPostEvents_filter {α : Type} (p : Event → Bool) (out : HandlerOutcome α)
    (hp : ∀ m, p (.logDebug m) = false) :
    (csiPostEvents out).filter p = [] := by
  unfold csiPostEvents
  cases out <;> simp [hp]

theorem trailerEvents_filter (p : Event → Bool) (ctx : Ctx)
    (hp : ∀ k v, p (.setTrailer k v) = false) :
    (trailerEvents ctx).filter p = [] := by
  unfold trailerEvents traceIDFromContext
  cases ctx.traceID <;> simp [hp]

theorem httpHeaderEvents_filter_header (ctx : Ctx) :
    (httpHeaderEvents ctx).filter isTraceIDHTTPHeader = httpHeaderEvents ctx := by
  unfold httpHeaderEvents traceIDFromContext
  cases ctx.traceID <;> simp [isTraceIDHTTPHeader, TraceIDKey]

theorem httpHeaderEvents_eq (ctx : Ctx) :
    httpHeaderEvents ctx =
      match ctx.traceID with
      | some t => [.setHTTPHeader TraceIDKey t]
      | none => [] := by
  unfold httpHeaderEvents traceIDFromContext
  cases ctx.traceID <;> rfl

/-! ## Claim C10: the outer stages pass the handler result through -/

/-- C10: the correlation stage, the profiling-label stage and the
data-capture stage each return exactly the handler's response and error;
in particular, marshalling or sanitization failures during data capture
(arbitrary `reqBytes`, `respBytes`, `san`, including `none` for a failed
serialization) never alter the response or introduce an error. -/
theorem c10_stages_preserve_handler_result {α : Type}
    (ctxUnaryModifier : Ctx → String → String → Ctx) (fullMethod : String)
    (san : List Nat → List Nat) (reqBytes : Option (List Nat))
    (respBytes : α → Option (List Nat)) (handler : Ctx → CallM α) (ctx : Ctx) :
    (callServerInterceptor ctxUnaryModifier handler ctx).1 =
      (handler (ctxUnaryModifier ctx (extractRemoteAddr ctx)
        (traceIDFromContext ctx).1)).1 ∧
    (pprofUnaryInterceptor fullMethod handler ctx).1 = (handler ctx).1 ∧
    (tracingDataServerInterceptor san reqBytes respBytes handler ctx).1 =
      (handler ctx).1 := by
  refine ⟨?_, rfl, ?_⟩
  · rcases hres : handler (ctxUnaryModifier ctx (extractRemoteAddr ctx)
      (traceIDFromContext ctx).1) with ⟨o, e⟩
    simp [callServerInterceptor, hres]
  · rcases hres : handler ctx with ⟨o, e⟩
    by_cases h : needDebug ctx = true <;>
      simp [tracingDataServerInterceptor, h, hres]

/-! ## Claim C7: the x-trace-id response metadata -/

/-- C7: with no active trace context, correlation extraction reports
absence and the pipeline adds no `x-trace-id` entry to response
metadata (trailer on gRPC, header on HTTP); with an active trace
context it adds exactly one entry holding the trace's canonical hex
string. -/
theorem c7_trace_id_correlation {α : Type} (cfg : UnaryPipelineConfig α)
    (handler : Ctx → CallM α) (ctx : Ctx) (out : HandlerOutcome α) (hevs : List Event)
    (ctxHTTPModifier : Ctx → String → Ctx) (next : Ctx → HTTPOutcome × List Event)
    (nout : HTTPOutcome) (nevs : List Event)
    (hh : handler (modifiedCtx cfg ctx) = (out, hevs))
    (hn : next (ctxHTTPModifier ctx (traceIDFromContext ctx).1) = (nout, nevs)) :
    (ctx.traceID = none → traceIDFromContext ctx = ("", false)) ∧
    (∀ t, ctx.traceID = some t → traceIDFromContext ctx = (t, true)) ∧
    ((unaryPipeline cfg handler ctx).2.filter isTraceIDTrailer =
      (match ctx.traceID with
        | some t => [Event.setTrailer TraceIDKey t]
        | none => []) ++ hevs.filter isTraceIDTrailer) ∧
    ((setCtxModifierHTTPMiddleware ctxHTTPModifier next ctx).2.filter
        isTraceIDHTTPHeader =
      (match ctx.traceID with
        | some t => [Event.setHTTPHeader TraceIDKey t]
        | none => []) ++ nevs.filter isTraceIDHTTPHeader) := by
  refine ⟨?_, ?_, ?_, ?_⟩
  · intro h; simp [traceIDFromContext, h]
  · intro t h; simp [traceIDFromContext, h]
  · rw [unaryPipeline_decomp cfg handler ctx out hevs hh]
    simp only [List.filter_append, List.filter_cons]
    rw [trailerEvents_filter_trailer, trailerEvents_eq,
      tracingPreEvents_filter isTraceIDTrailer cfg _ (fun _ _ => rfl) (fun _ _ => rfl),
      recoverPostEvents_filter isTraceIDTrailer _ _ _ (fun _ _ _ => rfl) (fun _ => rfl),
      tracingPostEvents_filter isTraceIDTrailer cfg _ _ (fun _ _ => rfl),
      csiPostEvents_filter isTraceIDTrailer _ (fun _ => rfl)]
    simp [isTraceIDTrailer]
  · rcases hctx' : ctxHTTPModifier ctx (traceIDFromContext ctx).1 with c
    simp only [setCtxModifierHTTPMiddleware, hctx'] at *
    rw [hn]
    simp only [List.filter_append, httpHeaderEvents_filter_header, httpHeaderEvents_eq]
    cases ctx.traceID <;> simp [isTraceIDHTTPHeader, TraceIDKey]

/-- Witness for `c7_trace_id_correlation`: a pipeline run inside an
active trace emits exactly one `x-trace-id` trailer holding its id, and
a run without one emits none. -/
theorem c7_trace_id_correlation_witness :
    (unaryPipeline
        ⟨false, "/svc/M", fun c _ _ => c, id, none, fun _ => none⟩
        (fun _ => (HandlerOutcome.ok (), []))
        ⟨some "4bf92f3577b34da6a3ce929d0e0e4736", [], none⟩).2.filter
      isTraceIDTrailer =
      [Event.setTrailer TraceIDKey "4bf92f3577b34da6a3ce929d0e0e4736"] ∧
    (unaryPipeline
        ⟨false, "/svc/M", fun c _ _ => c, id, none, fun _ => none⟩
        (fun _ => (HandlerOutcome.ok (), []))
        ⟨none, [], none⟩).2.filter isTraceIDTrailer = [] := by
  constructor
  · have h := (c7_trace_id_correlation
      ⟨false, "/svc/M", fun c _ _ => c, id, none, fun _ => none⟩
      (fun _ => (HandlerOutcome.ok (), []))
      ⟨some "4bf92f3577b34da6a3ce929d0e0e4736", [], none⟩
      (HandlerOutcome.ok ()) [] (fun c _ => c) (fun _ => (HTTPOutcome.done, []))
      HTTPOutcome.done [] rfl rfl).2.2.1
    simpa using h
  · have h := (c7_trace_id_correlation
      ⟨false, "/svc/M", fun c _ _ => c, id, none, fun _ => none⟩
      (fun _ => (HandlerOutcome.ok (), []))
      ⟨none, [], none⟩
      (HandlerOutcome.ok ()) [] (fun c _ => c) (fun _ => (HTTPOutcome.done, []))
      HTTPOutcome.done [] rfl rfl).2.2.1
    simpa using h

/-! ## Claim C9: the trailer is set before the handler runs -/

/-- The error-logging step of `callServerStreamInterceptor`. -/
def csiStreamPostEvents (out : HandlerOutcome Unit) : List Event :=
  match out with
  | .err _ => [.logDebug "grpc server stream error"]
  | _ => []

theorem recoverStreamStage_eq (r : Bool) (handler : Ctx → CallM Unit) (ctx : Ctx)
    (out : HandlerOutcome Unit) (hevs : List Event) (hh : handler ctx = (out, hevs)) :
    (if r then recoverStreamGRPC handler else handler) ctx =
      (recoverOutcome r out, hevs ++ recoverPostEvents r ctx out) := by
  cases r with
  | false => simp [recoverOutcome, recoverPostEvents, hh]
  | true => cases out <;> simp_all [recoverStreamGRPC, recoverOutcome, recoverPostEvents]

/-- One stream pipeline run, decomposed into stage contributions. -/
theorem streamPipeline_decomp (r : Bool) (fm : String)
    (smod : Ctx → String → String → Ctx) (sh : Ctx → CallM Unit) (ctx : Ctx)
    (sout : HandlerOutcome Unit) (sevs : List Event)
    (hs : sh (smod ctx (extractRemoteAddr ctx) (traceIDFromContext ctx).1) =
      (sout, sevs)) :
    streamPipeline r fm smod sh ctx =
      (recoverOutcome r sout,
        trailerEvents ctx ++
          (.pprofLabel "grpc-handler" fm ::
            (sevs ++ recoverPostEvents r
              (smod ctx (extractRemoteAddr ctx) (traceIDFromContext ctx).1) sout)) ++
          csiStreamPostEvents (recoverOutcome r sout)) := by
  have h1 := recoverStreamStage_eq r sh
    (smod ctx (extractRemoteAddr ctx) (traceIDFromContext ctx).1) sout sevs hs
  simp only [streamPipeline, callServerStreamInterceptor, pprofStreamInterceptor]
  rw [h1]
  simp only [csiStreamPostEvents]

/-- C9: on both the unary and the stream interceptor chains, inside an
active trace context, the `x-trace-id` trailer write is emitted before
any event of the user handler — it is attached before the handler is
invoked, never deferred to stream close. -/
theorem c9_trailer_before_handler {α : Type} (cfg : UnaryPipelineConfig α)
    (handler : Ctx → CallM α) (ctx : Ctx) (t : String) (out : HandlerOutcome α)
    (hevs : List Event) (r : Bool) (fm : String) (smod : Ctx → String → String → Ctx)
    (sh : Ctx → CallM Unit) (sout : HandlerOutcome Unit) (sevs : List Event)
    (ht : ctx.traceID = some t)
    (hh : handler (modifiedCtx cfg ctx) = (out, hevs))
    (hs : sh (smod ctx (extractRemoteAddr ctx) (traceIDFromContext ctx).1) =
      (sout, sevs)) :
    (∃ l₁ l₂, (unaryPipeline cfg handler ctx).2 = l₁ ++ (hevs ++ l₂) ∧
      Event.setTrailer TraceIDKey t ∈ l₁) ∧
    (∃ l₁ l₂, (streamPipeline r fm smod sh ctx).2 = l₁ ++ (sevs ++ l₂) ∧
      Event.setTrailer TraceIDKey t ∈ l₁) := by
  constructor
  · refine ⟨trailerEvents ctx ++
      (.pprofLabel "grpc-handler" cfg.fullMethod :: tracingPreEvents cfg (modifiedCtx cfg ctx)),
      recoverPostEvents cfg.recoverEnabled (modifiedCtx cfg ctx) out ++
        tracingPostEvents cfg (modifiedCtx cfg ctx) (recoverOutcome cfg.recoverEnabled out) ++
        csiPostEvents (recoverOutcome cfg.recoverEnabled out), ?_, ?_⟩
    · rw [unaryPipeline_decomp cfg handler ctx out hevs hh]
      simp
    · rw [trailerEvents_eq, ht]
      simp
  · refine ⟨trailerEvents ctx ++ [.pprofLabel "grpc-handler" fm],
      recoverPostEvents r (smod ctx (extractRemoteAddr ctx) (traceIDFromContext ctx).1)
        sout ++ csiStreamPostEvents (recoverOutcome r sout), ?_, ?_⟩
    · rw [streamPipeline_decomp r fm smod sh ctx sout sevs hs]
      simp
    · rw [trailerEvents_eq, ht]
      simp

/-- Witness for `c9_trailer_before_handler` on a concrete traced call:
on both chains the first emitted event is the trailer write, ahead of
the handler's own marker event. -/
theorem c9_trailer_before_handler_witness :
    (∃ l₁ l₂,
      (unaryPipeline ⟨true, "/svc/M", fun c _ _ => c, id, none, fun _ => none⟩
          (fun _ => (HandlerOutcome.ok (), [Event.logDebug "handler ran"]))
          ⟨some "abc123", [], none⟩).2 =
        l₁ ++ ([Event.logDebug "handler ran"] ++ l₂) ∧
      Event.setTrailer TraceIDKey "abc123" ∈ l₁) ∧
    (∃ l₁ l₂,
      (streamPipeline true "/svc/M" (fun c _ _ => c)
          (fun _ => (HandlerOutcome.ok (), [Event.logDebug "handler ran"]))
          ⟨some "abc123", [], none⟩).2 =
        l₁ ++ ([Event.logDebug "handler ran"] ++ l₂) ∧
      Event.setTrailer TraceIDKey "abc123" ∈ l₁) :=
  c9_trailer_before_handler ⟨true, "/svc/M", fun c _ _ => c, id, none, fun _ => none⟩
    (fun _ => (HandlerOutcome.ok (), [Event.logDebug "handler ran"]))
    ⟨some "abc123", [], none⟩ "abc123" (HandlerOutcome.ok ())
    [Event.logDebug "handler ran"] true "/svc/M" (fun c _ _ => c)
    (fun _ => (HandlerOutcome.ok (), [Event.logDebug "handler ran"]))
    (HandlerOutcome.ok ()) [Event.logDebug "handler ran"] rfl rfl rfl

/-! ## Claim C3: when panics are logged -/

/-- A pipeline configuration with defaults and the recovery flag as
given (identity enrichment hook, no marshalling, identity sanitizer). -/
def demoCfg (recoverEnabled : Bool) : UnaryPipelineConfig Unit :=
  ⟨recoverEnabled, "/svc/M", fun c _ _ => c, id, none, fun _ => none⟩

/-- A handler that panics with the string `"boom"`. -/
def panicHandler : Ctx → CallM Unit := fun _ => (.panic (.str "boom"), [])

/-- A context with no trace, no debug metadata and no peer. -/
def emptyCtx : Ctx := ⟨none, [], none⟩

/-- C3 counterexample: with recovery disabled, the interceptor chain
assembled by `prepare` contains no recovery stage, so a panicking
handler produces no error-level log record at all (in particular no
stack trace is logged) and the panic propagates uncontained — the
logging does not happen "regardless of whether recovery is enabled". -/
theorem c3_counterexample_no_log_without_recovery :
    (demoCfg false).recoverEnabled = false ∧
    (unaryPipeline (demoCfg false) panicHandler emptyCtx).2.any isPanicLog = false ∧
    (unaryPipeline (demoCfg false) panicHandler emptyCtx).1 = .panic (.str "boom") :=
  ⟨rfl, rfl, rfl⟩

/-- C3 (amended): a panic from the handler is logged with its full
stack trace (and the trace id when present) when recovery is enabled;
when recovery is disabled the framework emits no error-level log for the
panic — the recovery flag controls logging and containment together. -/
theorem c3_panic_logging_requires_recovery {α : Type} (cfg : UnaryPipelineConfig α)
    (handler : Ctx → CallM α) (ctx : Ctx) (p : PanicValue) (hevs : List Event)
    (hh : handler (modifiedCtx cfg ctx) = (.panic p, hevs))
    (hclean : hevs.filter isPanicLog = []) :
    (cfg.recoverEnabled = true →
      Event.logError "recovered from grpc panic" true (modifiedCtx cfg ctx).traceID ∈
        (unaryPipeline cfg handler ctx).2) ∧
    (cfg.recoverEnabled = false →
      (unaryPipeline cfg handler ctx).2.filter isPanicLog = []) := by
  constructor
  · intro hr
    rw [unaryPipeline_decomp cfg handler ctx _ hevs hh]
    simp [recoverPostEvents, hr]
  · intro hr
    rw [unaryPipeline_decomp cfg handler ctx _ hevs hh]
    simp only [List.filter_append, List.filter_cons]
    rw [trailerEvents_filter isPanicLog ctx (fun _ _ => rfl),
      tracingPreEvents_filter isPanicLog cfg _ (fun _ _ => rfl) (fun _ _ => rfl),
      tracingPostEvents_filter isPanicLog cfg _ _ (fun _ _ => rfl),
      csiPostEvents_filter isPanicLog _ (fun _ => rfl), hclean]
    simp [isPanicLog, recoverPostEvents, hr]

/-- Witness for `c3_panic_logging_requires_recovery`: with recovery
enabled the concrete panicking run contains the stack-trace log record;
with it disabled the same run contains no error-level record. -/
theorem c3_panic_logging_requires_recovery_witness :
    Event.logError "recovered from grpc panic" true none ∈
      (unaryPipeline (demoCfg true) panicHandler emptyCtx).2 ∧
    (unaryPipeline (demoCfg false) panicHandler emptyCtx).2.filter isPanicLog = [] :=
  ⟨(c3_panic_logging_requires_recovery (demoCfg true) panicHandler emptyCtx
      (.str "boom") [] rfl rfl).1 rfl,
    (c3_panic_logging_requires_recovery (demoCfg false) panicHandler emptyCtx
      (.str "boom") [] rfl rfl).2 rfl⟩

/-! ## Claim C4: panic conversion under recovery -/

/-- C4: with recovery enabled a panicking handler yields a structured
error with the `Internal` classification whose message contains the
panic's textual description; with recovery disabled no conversion
occurs and the panic propagates; on the HTTP gateway transport the
recovery middleware answers with a 500 response carrying the same error
text. -/
theorem c4_panic_conversion {α : Type} (cfg : UnaryPipelineConfig α)
    (handler : Ctx → CallM α) (ctx : Ctx) (p : PanicValue) (hevs : List Event)
    (next : Ctx → HTTPOutcome × List Event) (hctx : Ctx) (nevs : List Event)
    (hh : handler (modifiedCtx cfg ctx) = (.panic p, hevs))
    (hn : next hctx = (.panic p, nevs)) :
    (cfg.recoverEnabled = true →
      (unaryPipeline cfg handler ctx).1 = .err (errFromPanic p) ∧
      (errFromPanic p).code = internalCode ∧
      ∃ pre post, (errFromPanic p).msg = pre ++ panicText p ++ post) ∧
    (cfg.recoverEnabled = false →
      (unaryPipeline cfg handler ctx).1 = .panic p) ∧
    ((recoverHTTP next hctx).1 = .done ∧
      Event.httpError 500 (grpcErrorString (errFromPanic p) ++ "\n") ∈
        (recoverHTTP next hctx).2 ∧
      ∃ pre post,
        grpcErrorString (errFromPanic p) ++ "\n" = pre ++ panicText p ++ post) := by
  refine ⟨?_, ?_, ?_, ?_, ?_⟩
  · intro hr
    rw [unaryPipeline_decomp cfg handler ctx _ hevs hh]
    refine ⟨by simp [recoverOutcome, hr], rfl, "recover: ", "", ?_⟩
    simp [errFromPanic]
  · intro hr
    rw [unaryPipeline_decomp cfg handler ctx _ hevs hh]
    simp [recoverOutcome, hr]
  · simp [recoverHTTP, hn]
  · simp [recoverHTTP, hn]
  · refine ⟨"rpc error: code = " ++ codeString internalCode ++ " desc = " ++
      "recover: ", "\n", ?_⟩
    simp only [grpcErrorString, errFromPanic, String.append_assoc]

/-- Witness for `c4_panic_conversion` on a concrete panic `"boom"`: the
recovered unary call returns the internal status error `recover: boom`,
the unrecovered one propagates the panic, and the HTTP middleware
answers 500 with the status error's text. -/
theorem c4_panic_conversion_witness :
    (unaryPipeline (demoCfg true) panicHandler emptyCtx).1 =
      .err { code := 13, msg := "recover: boom" } ∧
    (unaryPipeline (demoCfg false) panicHandler emptyCtx).1 = .panic (.str "boom") ∧
    Event.httpError 500 "rpc error: code = Internal desc = recover: boom\n" ∈
      (recoverHTTP (fun _ => (.panic (.str "boom"), [])) emptyCtx).2 := by
  have h := c4_panic_conversion (demoCfg true) panicHandler emptyCtx (.str "boom") []
    (fun _ => (.panic (.str "boom"), [])) emptyCtx [] rfl rfl
  have h' := c4_panic_conversion (demoCfg false) panicHandler emptyCtx (.str "boom") []
    (fun _ => (.panic (.str "boom"), [])) emptyCtx [] rfl rfl
  refine ⟨?_, h'.2.1 rfl, ?_⟩
  · have := (h.1 rfl).1
    simpa [errFromPanic, internalCode, panicText] using this
  · have := h.2.2.2.1
    simpa [grpcErrorString, errFromPanic, codeString, internalCode, panicText] using this

/-! ## Claim C2: size bound on captured bodies -/

/-- A 70000-byte marshalled body (the spec's own example size). -/
def c2Body : List Nat := List.replicate 70000 48

/-- A context requesting debug capture. -/
def debugCtx : Ctx := ⟨none, ["1"], none⟩

/-- A handler that succeeds with no events. -/
def okHandler : Ctx → CallM Unit := fun _ => (.ok (), [])

/-- The capture run of a 70000-byte request body. -/
def c2Run : CallM Unit :=
  tracingDataServerInterceptor id (some c2Body) (fun _ => none) okHandler debugCtx

/-- C2 counterexample: a 70000-byte request body is not truncated to
64000 bytes and attached — `tracingDataServerInterceptor` attaches the
request only when it is strictly shorter than `MaxSpanBytes`, so the
oversized request body is dropped entirely (no `grpc_request` span
attribute at all), although the call still completes normally. -/
theorem c2_counterexample_oversized_request_dropped :
    needDebug debugCtx = true ∧
    c2Body.length = 70000 ∧
    MaxSpanBytes < c2Body.length ∧
    c2Run.2.any isGrpcRequestAttr = false ∧
    c2Run.1 = .ok () := by
  have hlen : c2Body.length = 70000 := by
    rw [show c2Body = List.replicate 70000 48 from rfl, List.length_replicate]
  have hrun : c2Run = ((.ok (), []) : CallM Unit) := by
    simp [c2Run, tracingDataServerInterceptor, needDebug, debugCtx, okHandler,
      tagRemoteAddrEvents, extractRemoteAddr, tracingReqAttrs, tracingRespAttrs,
      hlen, MaxSpanBytes, TraceDebugKeyValue]
  refine ⟨rfl, hlen, by rw [hlen]; decide, by rw [hrun]; rfl, by rw [hrun]⟩

/-- C2 (amended): during debug capture a response body longer than
64000 bytes is truncated to exactly 64000 bytes before sanitization and
attached; a request body of 64000 bytes or more is dropped (not
attached), while a shorter request body is attached sanitized and
untruncated; and the capture stage always returns the handler's outcome
unchanged, so an oversized body never fails the call. -/
theorem c2_capture_truncation {α : Type} (san : List Nat → List Nat)
    (reqBytes : Option (List Nat)) (respBytes : α → Option (List Nat))
    (handler : Ctx → CallM α) (ctx : Ctx) (rb rq : List Nat) (resp : α) :
    (respBytes resp = some rb → rb.length > MaxSpanBytes →
      tracingRespAttrs san respBytes (.ok resp) =
        [.spanAttrBytes "grpc_response" (san (rb.take MaxSpanBytes))] ∧
      (rb.take MaxSpanBytes).length = MaxSpanBytes) ∧
    (rq.length ≥ MaxSpanBytes → tracingReqAttrs san (some rq) = []) ∧
    (rq.length < MaxSpanBytes →
      tracingReqAttrs san (some rq) = [.spanAttrBytes "grpc_request" (san rq)]) ∧
    (tracingDataServerInterceptor san reqBytes respBytes handler ctx).1 =
      (handler ctx).1 := by
  refine ⟨fun h1 h2 => ⟨?_, ?_⟩, fun h => ?_, fun h => ?_, ?_⟩
  · simp [tracingRespAttrs, h1, h2]
  · simp [List.length_take]
    omega
  · simp [tracingReqAttrs, Nat.not_lt.2 h]
  · simp [tracingReqAttrs, h]
  · rcases hres : handler ctx with ⟨o, e⟩
    by_cases h : needDebug ctx = true <;>
      simp [tracingDataServerInterceptor, h, hres]

/-- Witness for `c2_capture_truncation`: a 70000-byte response body is
attached as its first 64000 bytes, whose length is exactly 64000. -/
theorem c2_capture_truncation_witness :
    c2Body.length > MaxSpanBytes ∧
    tracingRespAttrs id (fun _ : Unit => some c2Body) (.ok ()) =
      [.spanAttrBytes "grpc_response" (id (c2Body.take MaxSpanBytes))] ∧
    (c2Body.take MaxSpanBytes).length = MaxSpanBytes := by
  have hlen : MaxSpanBytes < c2Body.length := by
    rw [show c2Body = List.replicate 70000 48 from rfl, List.length_replicate]
    decide
  have h := (c2_capture_truncation id (some c2Body) (fun _ : Unit => some c2Body)
    okHandler debugCtx c2Body c2Body ()).1 rfl hlen
  exact ⟨hlen, h.1, h.2⟩

/-! ## Claim C5: the `Stop` shutdown order

`Stop` (in `part_003`) runs two goroutines — one draining the HTTP
gateway and then closing its client connection, one draining the
metrics server — waits for both, gracefully stops the gRPC server, and
finally waits for every background listener task.  Each shutdown step
only logs its error and continues.  The possible observable behaviours
are modelled as the set of interleavings of the two goroutines' traces
followed by the fixed sequential tail. -/

/-- A shutdown action; the flag records whether the underlying call
returned an error (which is only logged). -/
inductive StopEvent : Type where
  | httpShutdown (ok : Bool)
  | connClose (ok : Bool)
  | metricsShutdown (ok : Bool)
  | grpcGracefulStop
  | waitTasks
deriving DecidableEq

/-- The state `Stop` reads: which servers were started, and how each
shutdown call will fare. -/
structure StopConfig : Type where
  hasHTTP : Bool
  hasMetrics : Bool
  httpShutdownOk : Bool
  connCloseOk : Bool
  metricsShutdownOk : Bool

/-- The gateway goroutine of `Stop`: drain the HTTP server, then —
regardless of the drain's error — close the gateway's client
connection. -/
def httpGoroutine (c : StopConfig) : List StopEvent :=
  if c.hasHTTP then [.httpShutdown c.httpShutdownOk, .connClose c.connCloseOk] else []

/-- The metrics goroutine of `Stop`. -/
def metricsGoroutine (c : StopConfig) : List StopEvent :=
  if c.hasMetrics then [.metricsShutdown c.metricsShutdownOk] else []

/-- All interleavings of two sequential traces. -/
def interleavings {α : Type} : List α → List α → List (List α)
  | [], ys => [ys]
  | x :: xs, [] => [x :: xs]
  | x :: xs, y :: ys =>
    (interleavings xs (y :: ys)).map (x :: ·) ++
    (interleavings (x :: xs) ys).map (y :: ·)
termination_by xs ys => xs.length + ys.length

/-- Every observable trace of `Stop`: some interleaving of the two
goroutines (bracketed by `wg.Wait`), then `GracefulStop` on the primary
listener, then the wait for all background listener tasks. -/
def stopTraces (c : StopConfig) : List (List StopEvent) :=
  (interleavings (httpGoroutine c) (metricsGoroutine c)).map
    (· ++ [.grpcGracefulStop, .waitTasks])

theorem interleavings_sublist {α : Type} :
    ∀ (xs ys t : List α), t ∈ interleavings xs ys → xs.Sublist t ∧ ys.Sublist t
  | [], ys, t, h => by
    simp [interleavings] at h
    subst h
    exact ⟨List.nil_sublist _, List.Sublist.refl _⟩
  | x :: xs, [], t, h => by
    simp [interleavings] at h
    subst h
    exact ⟨List.Sublist.refl _, List.nil_sublist _⟩
  | x :: xs, y :: ys, t, h => by
    simp only [interleavings, List.mem_append, List.mem_map] at h
    rcases h with ⟨u, hu, rfl⟩ | ⟨u, hu, rfl⟩
    · have ih := interleavings_sublist xs (y :: ys) u hu
      exact ⟨List.Sublist.cons₂ x ih.1, List.Sublist.cons x ih.2⟩
    · have ih := interleavings_sublist (x :: xs) ys u hu
      exact ⟨List.Sublist.cons y ih.1, List.Sublist.cons₂ y ih.2⟩
termination_by xs ys => xs.length + ys.length

theorem single_sublist_decomp {α : Type} (b : α) (u : List α) (h : [b].Sublist u) :
    ∃ l2 l3, u = l2 ++ b :: l3 := by
  have hb : b ∈ u := h.subset (List.mem_singleton_self b)
  exact List.append_of_mem hb

theorem pair_sublist_decomp {α : Type} (a b : α) :
    ∀ u : List α, [a, b].Sublist u → ∃ l1 l2 l3, u = l1 ++ a :: (l2 ++ b :: l3)
  | [], h => by cases h
  | x :: u, h => by
    cases h with
    | cons _ h' =>
      obtain ⟨l1, l2, l3, rfl⟩ := pair_sublist_decomp a b u h'
      exact ⟨x :: l1, l2, l3, rfl⟩
    | cons₂ _ h' =>
      obtain ⟨l2, l3, rfl⟩ := single_sublist_decomp b u h'
      exact ⟨[], l2, l3, rfl⟩

/-- C5: in every possible execution of `Stop`, the gateway drain
precedes the gateway-connection close; both, and the metrics drain, are
complete before the primary listener's graceful drain begins; the wait
for the background listener tasks is the final step, so `Stop` returns
only afterwards; all of this holds for every combination of shutdown
failures, so a failed gateway or metrics shutdown never prevents the
primary drain; and when both servers exist the two drains are genuinely
concurrent — the trace set contains both relative orders. -/
theorem c5_stop_ordering (c : StopConfig) (t : List StopEvent)
    (ht : t ∈ stopTraces c) :
    (∃ u, t = u ++ [.grpcGracefulStop, .waitTasks] ∧
      (c.hasHTTP = true → ∃ l1 l2 l3,
        u = l1 ++ .httpShutdown c.httpShutdownOk ::
          (l2 ++ .connClose c.connCloseOk :: l3)) ∧
      (c.hasMetrics = true → .metricsShutdown c.metricsShutdownOk ∈ u)) ∧
    (c.hasHTTP = true → c.hasMetrics = true →
      .metricsShutdown c.metricsShutdownOk ::
          (httpGoroutine c ++ [.grpcGracefulStop, .waitTasks]) ∈ stopTraces c ∧
      .httpShutdown c.httpShutdownOk ::
          ([.connClose c.connCloseOk, .metricsShutdown c.metricsShutdownOk] ++
            [.grpcGracefulStop, .waitTasks]) ∈ stopTraces c) := by
  constructor
  · obtain ⟨u, hu, rfl⟩ := List.mem_map.1 ht
    refine ⟨u, rfl, ?_, ?_⟩
    · intro hH
      have hsub := (interleavings_sublist _ _ u hu).1
      rw [httpGoroutine, hH] at hsub
      simp only [if_true] at hsub
      exact pair_sublist_decomp _ _ u hsub
    · intro hM
      have hsub := (interleavings_sublist _ _ u hu).2
      rw [metricsGoroutine, hM] at hsub
      simp only [if_true] at hsub
      exact hsub.subset (List.mem_singleton_self _)
  · intro hH hM
    constructor
    · simp [stopTraces, httpGoroutine, metricsGoroutine, hH, hM, interleavings]
    · simp [stopTraces, httpGoroutine, metricsGoroutine, hH, hM, interleavings]

/-- Witness for `c5_stop_ordering`, on a run where both the gateway and
the metrics shutdown fail, over the interleaving that runs the metrics
drain between the gateway drain and the connection close. -/
theorem c5_stop_ordering_witness :
    (∃ u, ([.httpShutdown false, .metricsShutdown false, .connClose true,
          .grpcGracefulStop, .waitTasks] : List StopEvent) =
        u ++ [.grpcGracefulStop, .waitTasks] ∧
      ((true : Bool) = true → ∃ l1 l2 l3,
        u = l1 ++ .httpShutdown false :: (l2 ++ .connClose true :: l3)) ∧
      ((true : Bool) = true → .metricsShutdown false ∈ u)) ∧
    ((true : Bool) = true → (true : Bool) = true →
      .metricsShutdown false ::
          (httpGoroutine ⟨true, true, false, true, false⟩ ++
            [.grpcGracefulStop, .waitTasks]) ∈
        stopTraces ⟨true, true, false, true, false⟩ ∧
      .httpShutdown false ::
          ([.connClose true, .metricsShutdown false] ++
            [.grpcGracefulStop, .waitTasks]) ∈
        stopTraces ⟨true, true, false, true, false⟩) :=
  c5_stop_ordering ⟨true, true, false, true, false⟩
    [.httpShutdown false, .metricsShutdown false, .connClose true,
      .grpcGracefulStop, .waitTasks]
    (by simp [stopTraces, httpGoroutine, metricsGoroutine, interleavings])

/-! ## Claim C6: `Start` with the gateway disabled

`Start` (in `part_003`) runs `prepare` (which only assembles the
interceptor chain and reports whether the gateway is required, i.e.
whether the HTTP address is non-empty), then `startGRPCServer`
(bind, then one background serving task), and only when the gateway is
required `startHTTPGateway` (`grpc_gateway.go`), which creates the
internal client connection, registers handlers, starts the metrics
server inside it, and launches the gateway serving task.  External
failure points (binds, client creation, registrations) are explicit
boolean inputs. -/

/-- The inputs `Start` depends on. -/
structure StartConfig : Type where
  grpcEndpoint : String
  httpEndpoint : String
  metricsPort : String
  grpcListenOk : Bool
  marshallersOk : Bool
  gatewayClientOk : Bool
  registerHandlersOk : Bool
  healthOk : Bool
  httpEndpointsOk : Bool

/-- Observable state accumulated by `Start`: how many background
listener tasks were launched (`wg.Add` count), whether the gateway's
internal client connection was created, and whether the metrics server
was started. -/
structure StartState : Type where
  listenerTasks : Nat
  gatewayConnCreated : Bool
  metricsStarted : Bool
deriving DecidableEq

/-- Embedding of `startGRPCServer`: bind the primary listener (fatal on
failure) and launch its serving goroutine. -/
def startGRPCServer (c : StartConfig) (s : StartState) : Option StartState :=
  if c.grpcListenOk then some { s with listenerTasks := s.listenerTasks + 1 } else none

/-- Embedding of `startHTTPMetricsServer` (called from inside
`startHTTPGateway`): launches the metrics serving goroutine when the
metrics port is non-empty, never fails. -/
def startHTTPMetricsServer (c : StartConfig) (s : StartState) : StartState :=
  if c.metricsPort ≠ "" then
    { s with listenerTasks := s.listenerTasks + 1, metricsStarted := true }
  else s

/-- Embedding of `startHTTPGateway`: marshaller setup, client-connection
creation, handler/health/endpoint registration (each fatal on failure,
the connection having been created before the registrations), the
metrics server, and finally the gateway serving goroutine. -/
def startHTTPGateway (c : StartConfig) (s : StartState) : Option StartState :=
  if !c.marshallersOk then none
  else if !c.gatewayClientOk then none
  else
    let s := { s with gatewayConnCreated := true }
    if !c.registerHandlersOk then none
    else if !c.healthOk then none
    else if !c.httpEndpointsOk then none
    else
      let s := startHTTPMetricsServer c s
      some { s with listenerTasks := s.listenerTasks + 1 }

/-- Embedding of `Start`: `prepare` decides `httpRequired` from the
gateway address, the primary server starts first, and the gateway (with
everything inside it) starts only when required. -/
def startService (c : StartConfig) : Option StartState :=
  let httpRequired := c.httpEndpoint ≠ ""
  match startGRPCServer c ⟨0, false, false⟩ with
  | none => none
  | some s => if httpRequired then startHTTPGateway c s else some s

/-- C6: with an empty gateway address and a successful primary bind,
`Start` succeeds having launched exactly one background listener task
(the primary RPC listener) and created no internal client connection
(and no metrics server either, since it is started only inside the
gateway path). -/
theorem c6_no_gateway_single_listener (c : StartConfig)
    (hhttp : c.httpEndpoint = "") (hbind : c.grpcListenOk = true) :
    startService c = some ⟨1, false, false⟩ := by
  simp [startService, startGRPCServer, hhttp, hbind]

/-- Witness for `c6_no_gateway_single_listener` at a concrete
configuration. -/
theorem c6_no_gateway_single_listener_witness :
    startService ⟨":50051", "", ":50053", true, true, true, true, true, true⟩ =
      some ⟨1, false, false⟩ :=
  c6_no_gateway_single_listener
    ⟨":50051", "", ":50053", true, true, true, true, true, true⟩ rfl rfl

end Grpcsrv
